import Mathlib

/-!
Shallow embedding of the kiibohd-core signal-acquisition engines:
 * `kiibohd-hall-effect/src/lib.rs` — oversampling accumulator, calibration
   state machine, kinematic analysis, sensor array;
 * `kiibohd-keyscanning/src/lib.rs` — matrix strobe sequencing and sensing.

Machine integers are modelled by `Nat` (u8/u16/u32/usize) and `Int` (i16).
The oversampling sum fits u32 (at most 255 readings each below 2^16), the
accumulator count reaches the factor exactly, and the average of u16 readings
fits u16, so no unsigned wrap-around is reachable on the embedded paths; the
spec states that signed overflow is excluded by the caller's choice of
threshold magnitudes, so i16 arithmetic is embedded as exact `Int` arithmetic
with Rust's `/` rendered as truncation toward zero (`Int.tdiv`).
The linearization lookup table `MODEL` is an external resource, passed as a
function parameter `Nat → Int`.
-/

namespace HallEffect

/-- Calibration status of a sensor position (`CalibrationStatus` in
`kiibohd-hall-effect/src/lib.rs`). -/
inductive CalibrationStatus where
  | NotReady
  | SensorMissing
  | SensorBroken
  | MagnetDetected
  | MagnetWrongPoleOrMissing
  | MagnetTooStrong
  | MagnetTooWeak
  | InvalidIndex
deriving DecidableEq, Repr

/-- Kinematic analysis record (`SenseAnalysis`): raw u16 sample plus signed
distance/velocity/acceleration/jerk. -/
structure SenseAnalysis where
  raw : Nat
  distance : Int
  velocity : Int
  acceleration : Int
  jerk : Int
deriving DecidableEq, Repr

/-- `SenseAnalysis::null`: the all-zero analysis. -/
def SenseAnalysis.null : SenseAnalysis :=
  { raw := 0, distance := 0, velocity := 0, acceleration := 0, jerk := 0 }

/-- Oversampling accumulator (`RawData`): running u32 sum and u8 count. -/
structure RawData where
  scratch_samples : Nat
  scratch : Nat
deriving DecidableEq, Repr

/-- `RawData::new`. -/
def RawData.new : RawData :=
  { scratch_samples := 0, scratch := 0 }

/-- `RawData::add::<SC>`: accumulate one reading; on the SC-th reading return
the truncated average and reset both fields. Returns the updated accumulator
together with the Rust return value. -/
def RawData.add (SC : Nat) (rd : RawData) (reading : Nat) : RawData × Option Nat :=
  let scratch := rd.scratch + reading
  let scratch_samples := rd.scratch_samples + 1
  if scratch_samples = SC then
    ({ scratch_samples := 0, scratch := 0 }, some (scratch / SC))
  else
    ({ scratch_samples := scratch_samples, scratch := scratch }, none)

/-- Sensor statistics (`SenseStats`): min/max of averaged samples and the
lifetime sample counter. -/
structure SenseStats where
  min : Nat
  max : Nat
  samples : Nat
deriving DecidableEq, Repr

/-- `SenseStats::new`: sentinel extremes, zero samples. -/
def SenseStats.new : SenseStats :=
  { min := 0xFFFF, max := 0x0000, samples := 0 }

/-- `SenseStats::reset`: reset min/max to sentinel extremes; `samples` is
untouched. -/
def SenseStats.reset (s : SenseStats) : SenseStats :=
  { s with min := 0xFFFF, max := 0x0000 }

/-- Per-sensor record (`SenseData`). -/
structure SenseData where
  analysis : SenseAnalysis
  cal : CalibrationStatus
  data : RawData
  stats : SenseStats
deriving DecidableEq, Repr

/-- `SenseData::new`. -/
def SenseData.new : SenseData :=
  { analysis := SenseAnalysis.null
    cal := CalibrationStatus.NotReady
    data := RawData.new
    stats := SenseStats.new }

/-- Sensor errors (`SensorError`); `CalibrationError` carries a clone of the
sensor record. -/
inductive SensorError where
  | CalibrationError (data : SenseData)
  | FailedToResize (n : Nat)
  | InvalidSensor (n : Nat)
deriving DecidableEq, Repr

/-- `SenseAnalysis::new(raw, data)`: linearize the sample, subtract the
linearized `stats.min` baseline (only valid in `MagnetDetected`; otherwise the
null analysis is returned), then the finite differences: velocity, truncated
halved acceleration, and jerk (the `/ 3` is deliberately left out). -/
def SenseAnalysis.new (MODEL : Nat → Int) (raw : Nat) (data : SenseData) : SenseAnalysis :=
  let initial_distance := MODEL raw
  match data.cal with
  | CalibrationStatus.MagnetDetected =>
    let distance_offset := MODEL data.stats.min
    let distance := initial_distance - distance_offset
    let velocity := distance - data.analysis.distance
    let acceleration := (velocity - data.analysis.velocity).tdiv 2
    let jerk := acceleration - data.analysis.acceleration
    { raw := raw, distance := distance, velocity := velocity,
      acceleration := acceleration, jerk := jerk }
  | _ => SenseAnalysis.null

/-- `SenseData::check_calibration::<MMT, MX, MNOK, MXOK, NS>(data)`: the
previous-state-dependent threshold classifier, reading only `self.cal`. -/
def SenseData.check_calibration (MMT MX MNOK MXOK NS : Nat) (sd : SenseData)
    (data : Nat) : CalibrationStatus :=
  match sd.cal with
  | CalibrationStatus.MagnetDetected =>
    -- Normal Mode
    if data ≥ MX - 1 then
      CalibrationStatus.MagnetTooStrong
    else if data < MMT then
      CalibrationStatus.MagnetTooWeak
    else
      CalibrationStatus.MagnetDetected
  | _ =>
    -- Calibration Mode
    if data > MXOK then
      if sd.cal = CalibrationStatus.MagnetTooStrong then
        CalibrationStatus.MagnetTooStrong
      else
        CalibrationStatus.SensorBroken
    else if data < NS then
      CalibrationStatus.SensorMissing
    else if data < MNOK then
      if sd.cal = CalibrationStatus.MagnetTooWeak then
        CalibrationStatus.MagnetTooWeak
      else
        CalibrationStatus.MagnetWrongPoleOrMissing
    else
      CalibrationStatus.MagnetDetected

/-- `SenseData::add::<SC, MMT, MX, MNOK, MXOK, NS>(reading)`: feed the
accumulator; on batch completion update min/max, reclassify, and either reset
(returning a `CalibrationError` snapshot) or compute the new analysis.
Returns the mutated record together with the Rust `Result`. -/
def SenseData.add (SC MMT MX MNOK MXOK NS : Nat) (MODEL : Nat → Int)
    (sd : SenseData) (reading : Nat) :
    SenseData × Except SensorError (Option SenseAnalysis) :=
  match sd.data.add SC reading with
  | (rd, some data) =>
    -- Check min/max values
    let stats := if data > sd.stats.max then { sd.stats with max := data } else sd.stats
    let stats := if data < stats.min then { stats with min := data } else stats
    -- Check calibration (reads the previous status)
    let cal := sd.check_calibration MMT MX MNOK MXOK NS data
    match cal with
    | CalibrationStatus.MagnetDetected =>
      let sd' : SenseData := { sd with data := rd, stats := stats, cal := cal }
      let analysis := SenseAnalysis.new MODEL data sd'
      ({ sd' with analysis := analysis }, Except.ok (some analysis))
    | _ =>
      -- Reset min/max, clear analysis, only set raw
      let sd' : SenseData :=
        { analysis := { SenseAnalysis.null with raw := data }
          cal := cal
          data := rd
          stats := stats.reset }
      (sd', Except.error (SensorError.CalibrationError sd'))
  | (rd, none) => ({ sd with data := rd }, Except.ok none)

/-- Fixed-capacity sensor array (`Sensors<S>`), embedded as the list of its
records; the heapless capacity bound is the list length. -/
structure Sensors where
  sensors : List SenseData
deriving DecidableEq, Repr

/-- `Sensors::new`: `heapless::Vec::resize_default` to the vector's own
capacity always succeeds, so construction always yields `S` default
records. -/
def Sensors.new (S : Nat) : Except SensorError Sensors :=
  Except.ok { sensors := List.replicate S SenseData.new }

/-- `Sensors::get_data(index)`: bounds check, then the `NotReady` check. -/
def Sensors.get_data (s : Sensors) (index : Nat) : Except SensorError SenseData :=
  if h : index < s.sensors.length then
    if (s.sensors.get ⟨index, h⟩).cal = CalibrationStatus.NotReady then
      Except.error (SensorError.CalibrationError (s.sensors.get ⟨index, h⟩))
    else
      Except.ok (s.sensors.get ⟨index, h⟩)
  else
    Except.error (SensorError.InvalidSensor index)

end HallEffect

namespace Keyscanning

/-- Debounced key state (`State` in `kiibohd-keyscanning/src/state.rs`). -/
inductive State where
  | On
  | Off
deriving DecidableEq, Repr

/-- `KeyEvent` (`kiibohd-keyscanning/src/lib.rs`): classified momentary
push-button event; a key can only be idle in the off state. -/
inductive KeyEvent where
  | On (cycles_since_state_change : Nat)
  | Off (idle : Bool) (cycles_since_state_change : Nat)
deriving DecidableEq, Repr

/-- Modelled from the spec: the per-cell debounce state machine `KeyState`
lives in `kiibohd-keyscanning/src/state.rs`, which is not among the provided
source files; only its calling convention and the contract of §4.5 are
available. Fields: confirmed state, pending contrary-evidence cycle count,
cycles since the last confirmed transition, and the idle flag (meaningful
only in Off). -/
structure KeyState where
  state : State
  pending : Nat
  cycles : Nat
  idle : Bool
deriving DecidableEq, Repr

/-- Modelled from the spec: initial debounce cell — Off, idle, no evidence,
zero cycle counter (§4.5). -/
def KeyState.new : KeyState :=
  { state := State.Off, pending := 0, cycles := 0, idle := true }

/-- Modelled from the spec: `KeyState::record(on)` per the §4.5 contract —
agreement with the confirmed state resets pending evidence and may mark an
Off cell idle after `IDLE` quiet cycles; disagreement accumulates pending
evidence, flipping the confirmed state only once it has persisted for `DB`
cycles, and clears idle. Returns the updated cell with the
(state, idle, cycles-since-transition) triple. -/
def KeyState.record (DB IDLE : Nat) (ks : KeyState) (lvl : Bool) :
    KeyState × (State × Bool × Nat) :=
  let raw := if lvl then State.On else State.Off
  if raw = ks.state then
    let cycles := ks.cycles + 1
    let idle := decide (ks.state = State.Off) && decide (IDLE ≤ cycles)
    ({ ks with pending := 0, cycles := cycles, idle := idle },
     (ks.state, idle, cycles))
  else
    let pending := ks.pending + 1
    if DB ≤ pending then
      ({ state := raw, pending := 0, cycles := 0, idle := false },
       (raw, false, 0))
    else
      ({ ks with pending := pending, cycles := ks.cycles + 1, idle := false },
       (ks.state, false, ks.cycles + 1))

/-- The matrix scanner (`Matrix` in `kiibohd-keyscanning/src/lib.rs`):
column strobe levels, the current strobe index, and the debounce grid.
The GPIO drivers are external; a column pin is embedded as its driven level,
and hardware errors (propagated unchanged by the code) have no model-side
source, so pin writes are level updates. -/
structure Matrix (CSIZE RSIZE MSIZE : Nat) where
  cols : List Bool
  cur_strobe : Nat
  state_matrix : List KeyState
deriving DecidableEq, Repr

variable {CSIZE RSIZE MSIZE : Nat}

/-- `Matrix::clear`: drive every column low and reset the strobe counter to
the last element so `next_strobe` starts at 0. -/
def Matrix.clear (m : Matrix CSIZE RSIZE MSIZE) : Matrix CSIZE RSIZE MSIZE :=
  { m with cols := m.cols.map (fun _ => false), cur_strobe := CSIZE - 1 }

/-- `Matrix::new(cols, rows)`: fresh debounce grid, strobe counter at
`CSIZE - 1`, then `clear()`. -/
def Matrix.new (CSIZE RSIZE MSIZE : Nat) : Matrix CSIZE RSIZE MSIZE :=
  Matrix.clear
    { cols := List.replicate CSIZE false
      cur_strobe := CSIZE - 1
      state_matrix := List.replicate MSIZE KeyState.new }

/-- `Matrix::next_strobe`: unset the current strobe, drain the sense lines
(touches only the external row pins), advance the strobe index with roll-over,
set the new strobe, and return the new index. -/
def Matrix.next_strobe (m : Matrix CSIZE RSIZE MSIZE) :
    Matrix CSIZE RSIZE MSIZE × Nat :=
  let cols := m.cols.set m.cur_strobe false
  let cur_strobe := if m.cur_strobe ≥ CSIZE - 1 then 0 else m.cur_strobe + 1
  let cols := cols.set cur_strobe true
  ({ m with cols := cols, cur_strobe := cur_strobe }, cur_strobe)

/-- `Matrix::strobe`: the current strobe index. -/
def Matrix.strobe (m : Matrix CSIZE RSIZE MSIZE) : Nat :=
  m.cur_strobe

/-- The row loop of `Matrix::sense`: for the `i`-th row reading, access the
debounce grid at `cur_strobe * RSIZE + i`, record the level, and build the
per-row `KeyEvent` list. Grid indexing out of bounds is a Rust panic,
embedded as `none`. -/
def senseRows (DB IDLE RSIZE cur_strobe : Nat) (sm : List KeyState)
    (rows : List Bool) (i : Nat) : Option (List KeyState × List KeyEvent) :=
  match rows with
  | [] => some (sm, [])
  | lvl :: rest =>
    let index := cur_strobe * RSIZE + i
    match sm.get? index with
    | none => none
    | some ks =>
      let r := ks.record DB IDLE lvl
      match senseRows DB IDLE RSIZE cur_strobe (sm.set index r.1) rest (i + 1) with
      | none => none
      | some (smf, evs) =>
        let ev := if r.2.1 = State.On then KeyEvent.On r.2.2.2
                  else KeyEvent.Off r.2.2.1 r.2.2.2
        some (smf, ev :: evs)

/-- `Matrix::sense`: read every row level for the currently strobed column
(the levels are the external `is_high` results, passed as `rows`), feed each
into its debounce cell, and return the classified events. -/
def Matrix.sense (DB IDLE : Nat) (m : Matrix CSIZE RSIZE MSIZE)
    (rows : List Bool) : Option (Matrix CSIZE RSIZE MSIZE × List KeyEvent) :=
  match senseRows DB IDLE RSIZE m.cur_strobe m.state_matrix rows 0 with
  | none => none
  | some (sm, evs) => some ({ m with state_matrix := sm }, evs)

/-- Iterated `next_strobe`: the matrix after `n` calls. -/
def Matrix.strobeIter (m : Matrix CSIZE RSIZE MSIZE) : Nat → Matrix CSIZE RSIZE MSIZE
  | 0 => m
  | n + 1 => (Matrix.strobeIter m n).next_strobe.1

/-- The value returned by the `(n+1)`-th `next_strobe` call (0-indexed). -/
def Matrix.strobeReturn (m : Matrix CSIZE RSIZE MSIZE) (n : Nat) : Nat :=
  (Matrix.strobeIter m n).next_strobe.2

/-- States reachable through the public `Matrix` API: construction, `clear`,
`next_strobe`, and successful `sense` calls (with arbitrary row readings).
`strobe` is read-only. -/
inductive Matrix.Reachable (CSIZE RSIZE MSIZE DB IDLE : Nat) :
    Matrix CSIZE RSIZE MSIZE → Prop where
  | new : Matrix.Reachable CSIZE RSIZE MSIZE DB IDLE (Matrix.new CSIZE RSIZE MSIZE)
  | clear {m} : Matrix.Reachable CSIZE RSIZE MSIZE DB IDLE m →
      Matrix.Reachable CSIZE RSIZE MSIZE DB IDLE m.clear
  | next_strobe {m} : Matrix.Reachable CSIZE RSIZE MSIZE DB IDLE m →
      Matrix.Reachable CSIZE RSIZE MSIZE DB IDLE m.next_strobe.1
  | sense {m m' rows evs} : Matrix.Reachable CSIZE RSIZE MSIZE DB IDLE m →
      m.sense DB IDLE rows = some (m', evs) →
      Matrix.Reachable CSIZE RSIZE MSIZE DB IDLE m'

end Keyscanning

namespace HallEffect

/-- Fold `RawData::add` over a list of raw readings, collecting every per-call
return value in order. -/
def RawData.addList (SC : Nat) (rd : RawData) (rs : List Nat) :
    RawData × List (Option Nat) :=
  match rs with
  | [] => (rd, [])
  | r :: rest =>
    let p := rd.add SC r
    let q := RawData.addList SC p.1 rest
    (q.1, p.2 :: q.2)

/-- Fold `SenseData::add` over a list of raw readings, keeping the final
sensor record (the per-call results are discarded). -/
def SenseData.addSeq (SC MMT MX MNOK MXOK NS : Nat) (MODEL : Nat → Int)
    (sd : SenseData) (rs : List Nat) : SenseData :=
  match rs with
  | [] => sd
  | r :: rest =>
    SenseData.addSeq SC MMT MX MNOK MXOK NS MODEL
      (sd.add SC MMT MX MNOK MXOK NS MODEL r).1 rest

/-- The next-status function exactly as the spec's threshold table words it
(spec §4.1 step 3), to be compared against `SenseData.check_calibration`:
Normal Mode when the current status is `MagnetDetected`, Calibration Mode
otherwise, with the `MagnetTooStrong`/`MagnetTooWeak` latching rules. -/
def specNextStatus (MMT MX MNOK MXOK NS : Nat) (cur : CalibrationStatus)
    (sample : Nat) : CalibrationStatus :=
  if cur = CalibrationStatus.MagnetDetected then
    if sample ≥ MX - 1 then CalibrationStatus.MagnetTooStrong
    else if sample < MMT then CalibrationStatus.MagnetTooWeak
    else CalibrationStatus.MagnetDetected
  else
    if sample > MXOK then
      if cur = CalibrationStatus.MagnetTooStrong then CalibrationStatus.MagnetTooStrong
      else CalibrationStatus.SensorBroken
    else if sample < NS then CalibrationStatus.SensorMissing
    else if sample < MNOK then
      if cur = CalibrationStatus.MagnetTooWeak then CalibrationStatus.MagnetTooWeak
      else CalibrationStatus.MagnetWrongPoleOrMissing
    else CalibrationStatus.MagnetDetected

/-- A concrete monotone linearization table used to instantiate witnesses:
the identity embedding of the raw domain. -/
def idModel : Nat → Int := fun n => (n : Int)

end HallEffect

namespace HallEffect

/-- C1: for every previous calibration status and every averaged sample,
`SenseData::check_calibration` computes the next status exactly per the
spec's threshold table (Normal Mode with the `MX − 1` / `MMT` cutoffs when
the current status is `MagnetDetected`; Calibration Mode with the
`MXOK` / `NS` / `MNOK` cutoffs and the TooStrong/TooWeak latching
otherwise). -/
theorem check_calibration_matches_spec (MMT MX MNOK MXOK NS : Nat)
    (sd : SenseData) (sample : Nat) :
    sd.check_calibration MMT MX MNOK MXOK NS sample
      = specNextStatus MMT MX MNOK MXOK NS sd.cal sample := by
  cases h : sd.cal <;>
    simp [SenseData.check_calibration, specNextStatus, h]

end HallEffect

namespace HallEffect

/-- Helper: folding the accumulator over the remaining readings of a batch.
Starting from a partially filled accumulator that needs exactly `rs.length`
more readings, every call but the last returns `none`, the last returns the
truncated average of the whole batch, and the accumulator ends reset. -/
theorem addList_batch (SC : Nat) (rs : List Nat) :
    ∀ (k s : Nat), k + rs.length = SC → rs ≠ [] →
      RawData.addList SC ⟨k, s⟩ rs
        = (RawData.new,
           List.replicate (rs.length - 1) none ++ [some ((s + rs.sum) / SC)]) := by
  induction rs with
  | nil => intro k s _ hne; exact absurd rfl hne
  | cons r rest ih =>
    intro k s h _
    by_cases hrest : rest = []
    · subst hrest
      simp only [List.length_cons, List.length_nil] at h
      simp [RawData.addList, RawData.add, RawData.new, h, Nat.add_comm s r]
    · have hlen : 0 < rest.length := List.length_pos.mpr hrest
      have hk : ¬ (k + 1 = SC) := by
        simp only [List.length_cons] at h; omega
      have hrec := ih (k + 1) (s + r)
        (by simp only [List.length_cons] at h; omega) hrest
      simp only [RawData.addList, RawData.add, hk, if_false]
      rw [hrec]
      have hrep : List.replicate ((r :: rest).length - 1) (none : Option Nat)
          = none :: List.replicate (rest.length - 1) none := by
        have : (r :: rest).length - 1 = (rest.length - 1) + 1 := by
          simp only [List.length_cons]; omega
        rw [this, List.replicate_succ]
      rw [hrep]
      simp [Nat.add_assoc]

end HallEffect

namespace HallEffect

/-- Helper: `RawData.addList` splits over list append. -/
theorem addList_append (SC : Nat) (a b : List Nat) :
    ∀ rd : RawData,
      RawData.addList SC rd (a ++ b)
        = ((RawData.addList SC (RawData.addList SC rd a).1 b).1,
           (RawData.addList SC rd a).2
             ++ (RawData.addList SC (RawData.addList SC rd a).1 b).2) := by
  induction a with
  | nil => intro rd; simp [RawData.addList]
  | cons r rest ih =>
    intro rd
    simp only [List.cons_append, RawData.addList, List.append_eq]
    rw [ih]

/-- C3: for every oversampling factor `SC ≥ 1` and every batch of `SC` raw
readings fed to `RawData::add` from the reset accumulator, the first
`SC − 1` calls return `none`, the `SC`-th call returns the truncated
floor-division of the readings' sum by `SC`, and both fields end reset to
zero — so a second batch of `SC` readings behaves identically. -/
theorem accumulator_batches (SC : Nat) (rs : List Nat)
    (h1 : 1 ≤ SC) (h2 : rs.length = SC) :
    RawData.addList SC RawData.new rs
      = (RawData.new, List.replicate (SC - 1) none ++ [some (rs.sum / SC)]) ∧
    (∀ rs2 : List Nat, rs2.length = SC →
      RawData.addList SC RawData.new (rs ++ rs2)
        = (RawData.new,
           (List.replicate (SC - 1) none ++ [some (rs.sum / SC)])
             ++ (List.replicate (SC - 1) none ++ [some (rs2.sum / SC)]))) := by
  have hne : rs ≠ [] := by
    intro hnil; rw [hnil] at h2; simp at h2; omega
  have hbatch : RawData.addList SC RawData.new rs
      = (RawData.new, List.replicate (SC - 1) none ++ [some (rs.sum / SC)]) := by
    have := addList_batch SC rs 0 0 (by omega) hne
    simpa [RawData.new, h2] using this
  refine ⟨hbatch, ?_⟩
  intro rs2 hr2
  have hne2 : rs2 ≠ [] := by
    intro hnil; rw [hnil] at hr2; simp at hr2; omega
  have hbatch2 : RawData.addList SC RawData.new rs2
      = (RawData.new, List.replicate (SC - 1) none ++ [some (rs2.sum / SC)]) := by
    have := addList_batch SC rs2 0 0 (by omega) hne2
    simpa [RawData.new, hr2] using this
  rw [addList_append, hbatch, hbatch2]

/-- Witness for C3 at `SC = 2`: the batch `[10, 13]` yields `[none, some 11]`
ending reset, and the follow-up batch `[1, 2]` repeats the behaviour. -/
theorem accumulator_batches_witness :
    1 ≤ 2 ∧ ([10, 13] : List Nat).length = 2 ∧
    RawData.addList 2 RawData.new [10, 13]
      = (RawData.new, [none, some 11]) ∧
    RawData.addList 2 RawData.new ([10, 13] ++ [1, 2])
      = (RawData.new, [none, some 11, none, some 1]) := by
  have h := accumulator_batches 2 [10, 13] (by decide) (by decide)
  refine ⟨by decide, by decide, ?_, ?_⟩
  · simpa using h.1
  · simpa using h.2 [1, 2] (by decide)

end HallEffect

namespace HallEffect

/-- Helper: one `SenseData::add` call never changes `stats.samples`. -/
theorem add_preserves_samples (SC MMT MX MNOK MXOK NS : Nat) (MODEL : Nat → Int)
    (sd : SenseData) (reading : Nat) :
    ((sd.add SC MMT MX MNOK MXOK NS MODEL reading).1).stats.samples
      = sd.stats.samples := by
  unfold SenseData.add
  cases hp : sd.data.add SC reading with
  | mk rd out =>
    cases out with
    | none => rfl
    | some data =>
      simp only []
      cases hc : sd.check_calibration MMT MX MNOK MXOK NS data <;>
        simp [SenseStats.reset] <;> split_ifs <;> rfl

/-- C9: `stats.samples` is a lifetime counter that is never reset —
`SenseStats::reset` sets `min` to `0xFFFF` and `max` to `0` while leaving
`samples` (and nothing else) changed, and `SenseData::add` leaves `samples`
unchanged on every path, hence non-decreasing over every sequence of
readings. -/
theorem samples_never_reset :
    (∀ s : SenseStats,
      s.reset = { min := 0xFFFF, max := 0x0000, samples := s.samples }) ∧
    (∀ (SC MMT MX MNOK MXOK NS : Nat) (MODEL : Nat → Int)
        (sd : SenseData) (reading : Nat),
      ((sd.add SC MMT MX MNOK MXOK NS MODEL reading).1).stats.samples
        = sd.stats.samples) ∧
    (∀ (SC MMT MX MNOK MXOK NS : Nat) (MODEL : Nat → Int)
        (sd : SenseData) (rs : List Nat),
      sd.stats.samples
        ≤ (SenseData.addSeq SC MMT MX MNOK MXOK NS MODEL sd rs).stats.samples) := by
  refine ⟨fun s => rfl, add_preserves_samples, ?_⟩
  intro SC MMT MX MNOK MXOK NS MODEL sd rs
  induction rs generalizing sd with
  | nil => exact Nat.le_refl _
  | cons r rest ih =>
    calc sd.stats.samples
        = ((sd.add SC MMT MX MNOK MXOK NS MODEL r).1).stats.samples :=
          (add_preserves_samples SC MMT MX MNOK MXOK NS MODEL sd r).symm
      _ ≤ _ := ih _

end HallEffect

namespace HallEffect

/-- C2: whenever `SenseData::add` completes a batch and the resulting status
is `MagnetDetected` (i.e. it returns `Ok(Some(analysis))`), the returned
analysis is the record's new analysis and satisfies the kinematic chain:
`distance = MODEL[sample] − MODEL[stats.min]` (with `stats.min` as updated by
this call), `velocity = distance − previous.distance`,
`acceleration = (velocity − previous.velocity) / 2` truncating toward zero,
and `jerk = acceleration − previous.acceleration` with no division by 3. -/
theorem analysis_kinematics (SC MMT MX MNOK MXOK NS : Nat) (MODEL : Nat → Int)
    (sd : SenseData) (reading : Nat) (a : SenseAnalysis)
    (h : (sd.add SC MMT MX MNOK MXOK NS MODEL reading).2
      = Except.ok (some a)) :
    a = (sd.add SC MMT MX MNOK MXOK NS MODEL reading).1.analysis ∧
    (sd.add SC MMT MX MNOK MXOK NS MODEL reading).1.cal
      = CalibrationStatus.MagnetDetected ∧
    (sd.data.add SC reading).2 = some a.raw ∧
    a.distance
      = MODEL a.raw
        - MODEL ((sd.add SC MMT MX MNOK MXOK NS MODEL reading).1.stats.min) ∧
    a.velocity = a.distance - sd.analysis.distance ∧
    a.acceleration = (a.velocity - sd.analysis.velocity).tdiv 2 ∧
    a.jerk = a.acceleration - sd.analysis.acceleration := by
  unfold SenseData.add at h ⊢
  set p := sd.data.add SC reading with hp
  clear_value p
  obtain ⟨rd, out⟩ := p
  cases out with
  | none => simp at h
  | some data =>
    simp only [] at h ⊢
    set c := sd.check_calibration MMT MX MNOK MXOK NS data with hc
    clear_value c
    cases c with
    | MagnetDetected =>
      simp only [Except.ok.injEq, Option.some.injEq] at h
      subst h
      simp [SenseAnalysis.new]
    | NotReady => simp at h
    | SensorMissing => simp at h
    | SensorBroken => simp at h
    | MagnetWrongPoleOrMissing => simp at h
    | MagnetTooStrong => simp at h
    | MagnetTooWeak => simp at h
    | InvalidIndex => simp at h

end HallEffect

namespace HallEffect

/-- Witness for C2: with `SC = 1`, thresholds `MMT = 2, MX = 100, MNOK = 2,
MXOK = 100, NS = 1` and the identity table, the samples `[10, 12, 15, 19]`
produce the claim's example — distances `[0, 2, 5, 9]`, velocities
`[_, 2, 3, 4]`, accelerations `[_, _, 0, 0]`, jerk `[_, _, _, 0]` — and the
kinematic-chain theorem applies at the fourth batch. -/
theorem analysis_kinematics_witness :
    (SenseData.addSeq 1 2 100 2 100 1 idModel SenseData.new [10]).analysis.distance = 0 ∧
    (SenseData.addSeq 1 2 100 2 100 1 idModel SenseData.new [10, 12]).analysis.distance = 2 ∧
    (SenseData.addSeq 1 2 100 2 100 1 idModel SenseData.new [10, 12]).analysis.velocity = 2 ∧
    (SenseData.addSeq 1 2 100 2 100 1 idModel SenseData.new [10, 12, 15]).analysis.distance = 5 ∧
    (SenseData.addSeq 1 2 100 2 100 1 idModel SenseData.new [10, 12, 15]).analysis.velocity = 3 ∧
    (SenseData.addSeq 1 2 100 2 100 1 idModel SenseData.new [10, 12, 15]).analysis.acceleration = 0 ∧
    (SenseData.addSeq 1 2 100 2 100 1 idModel SenseData.new [10, 12, 15, 19]).analysis.distance = 9 ∧
    (SenseData.addSeq 1 2 100 2 100 1 idModel SenseData.new [10, 12, 15, 19]).analysis.velocity = 4 ∧
    (SenseData.addSeq 1 2 100 2 100 1 idModel SenseData.new [10, 12, 15, 19]).analysis.acceleration = 0 ∧
    (SenseData.addSeq 1 2 100 2 100 1 idModel SenseData.new [10, 12, 15, 19]).analysis.jerk = 0 ∧
    ((⟨19, 9, 4, 0, 0⟩ : SenseAnalysis)
        = ((SenseData.addSeq 1 2 100 2 100 1 idModel SenseData.new [10, 12, 15]).add
            1 2 100 2 100 1 idModel 19).1.analysis ∧
      ((SenseData.addSeq 1 2 100 2 100 1 idModel SenseData.new [10, 12, 15]).add
          1 2 100 2 100 1 idModel 19).1.cal = CalibrationStatus.MagnetDetected ∧
      ((SenseData.addSeq 1 2 100 2 100 1 idModel SenseData.new [10, 12, 15]).data.add 1 19).2
        = some (⟨19, 9, 4, 0, 0⟩ : SenseAnalysis).raw ∧
      (⟨19, 9, 4, 0, 0⟩ : SenseAnalysis).distance
        = idModel (⟨19, 9, 4, 0, 0⟩ : SenseAnalysis).raw
          - idModel (((SenseData.addSeq 1 2 100 2 100 1 idModel SenseData.new [10, 12, 15]).add
              1 2 100 2 100 1 idModel 19).1.stats.min) ∧
      (⟨19, 9, 4, 0, 0⟩ : SenseAnalysis).velocity
        = (⟨19, 9, 4, 0, 0⟩ : SenseAnalysis).distance
          - (SenseData.addSeq 1 2 100 2 100 1 idModel SenseData.new [10, 12, 15]).analysis.distance ∧
      (⟨19, 9, 4, 0, 0⟩ : SenseAnalysis).acceleration
        = ((⟨19, 9, 4, 0, 0⟩ : SenseAnalysis).velocity
          - (SenseData.addSeq 1 2 100 2 100 1 idModel SenseData.new [10, 12, 15]).analysis.velocity).tdiv 2 ∧
      (⟨19, 9, 4, 0, 0⟩ : SenseAnalysis).jerk
        = (⟨19, 9, 4, 0, 0⟩ : SenseAnalysis).acceleration
          - (SenseData.addSeq 1 2 100 2 100 1 idModel SenseData.new [10, 12, 15]).analysis.acceleration) := by
  refine ⟨by decide, by decide, by decide, by decide, by decide, by decide,
    by decide, by decide, by decide, by decide, ?_⟩
  exact analysis_kinematics 1 2 100 2 100 1 idModel
    (SenseData.addSeq 1 2 100 2 100 1 idModel SenseData.new [10, 12, 15]) 19
    ⟨19, 9, 4, 0, 0⟩ (by rfl)

end HallEffect

namespace HallEffect

/-- C4: whenever `SenseData::add` completes a batch whose resulting status is
not `MagnetDetected`, the record is reset — `stats.min = 0xFFFF`,
`stats.max = 0`, `samples` kept, analysis cleared to null except `raw`, which
records the new averaged sample — and the call returns a `CalibrationError`
carrying a snapshot (clone) of the mutated record rather than panicking or
succeeding. -/
theorem add_error_resets (SC MMT MX MNOK MXOK NS : Nat) (MODEL : Nat → Int)
    (sd : SenseData) (reading avg : Nat) (rd : RawData)
    (hacc : sd.data.add SC reading = (rd, some avg))
    (hcal : sd.check_calibration MMT MX MNOK MXOK NS avg
      ≠ CalibrationStatus.MagnetDetected) :
    (sd.add SC MMT MX MNOK MXOK NS MODEL reading).1
      = { analysis := { SenseAnalysis.null with raw := avg }
          cal := sd.check_calibration MMT MX MNOK MXOK NS avg
          data := rd
          stats := { min := 0xFFFF, max := 0x0000, samples := sd.stats.samples } } ∧
    (sd.add SC MMT MX MNOK MXOK NS MODEL reading).2
      = Except.error (SensorError.CalibrationError
          (sd.add SC MMT MX MNOK MXOK NS MODEL reading).1) := by
  unfold SenseData.add
  rw [hacc]
  simp only []
  set c := sd.check_calibration MMT MX MNOK MXOK NS avg with hc
  clear_value c
  cases c with
  | MagnetDetected => exact absurd rfl hcal
  | NotReady =>
      refine ⟨?_, trivial⟩
      simp [SenseStats.reset]
      split_ifs <;> rfl
  | SensorMissing =>
      refine ⟨?_, trivial⟩
      simp [SenseStats.reset]
      split_ifs <;> rfl
  | SensorBroken =>
      refine ⟨?_, trivial⟩
      simp [SenseStats.reset]
      split_ifs <;> rfl
  | MagnetWrongPoleOrMissing =>
      refine ⟨?_, trivial⟩
      simp [SenseStats.reset]
      split_ifs <;> rfl
  | MagnetTooStrong =>
      refine ⟨?_, trivial⟩
      simp [SenseStats.reset]
      split_ifs <;> rfl
  | MagnetTooWeak =>
      refine ⟨?_, trivial⟩
      simp [SenseStats.reset]
      split_ifs <;> rfl
  | InvalidIndex =>
      refine ⟨?_, trivial⟩
      simp [SenseStats.reset]
      split_ifs <;> rfl

/-- Witness for C4: from a fresh record with `SC = 1` and `NS = 1`, the
reading `0` averages to `0 < NS`, classifying `SensorMissing`; the record is
reset and the error snapshot equals the mutated record. -/
theorem add_error_resets_witness :
    (SenseData.new.data.add 1 0 = (RawData.new, some 0)) ∧
    SenseData.new.check_calibration 2 100 2 100 1 0
      ≠ CalibrationStatus.MagnetDetected ∧
    (SenseData.new.add 1 2 100 2 100 1 idModel 0).1
      = { analysis := { SenseAnalysis.null with raw := 0 }
          cal := SenseData.new.check_calibration 2 100 2 100 1 0
          data := RawData.new
          stats := { min := 0xFFFF, max := 0x0000, samples := SenseData.new.stats.samples } } ∧
    (SenseData.new.add 1 2 100 2 100 1 idModel 0).2
      = Except.error (SensorError.CalibrationError
          (SenseData.new.add 1 2 100 2 100 1 idModel 0).1) := by
  refine ⟨by decide, by decide, ?_, ?_⟩
  · exact (add_error_resets 1 2 100 2 100 1 idModel SenseData.new 0 0 RawData.new
      (by decide) (by decide)).1
  · exact (add_error_resets 1 2 100 2 100 1 idModel SenseData.new 0 0 RawData.new
      (by decide) (by decide)).2

end HallEffect

namespace HallEffect

/-- C10: because `SenseData::add` updates `stats.min` with the new averaged
sample before computing the analysis, `stats.min ≤ sample` holds there, so
for a monotonic non-decreasing linearization table every analysis returned
from a `MagnetDetected` batch has `distance = MODEL[sample] − MODEL[stats.min]
≥ 0`. -/
theorem distance_nonneg (SC MMT MX MNOK MXOK NS : Nat) (MODEL : Nat → Int)
    (hmono : ∀ a b : Nat, a ≤ b → MODEL a ≤ MODEL b)
    (sd : SenseData) (reading : Nat) (a : SenseAnalysis)
    (h : (sd.add SC MMT MX MNOK MXOK NS MODEL reading).2
      = Except.ok (some a)) :
    0 ≤ a.distance := by
  unfold SenseData.add at h
  set p := sd.data.add SC reading with hp
  clear_value p
  obtain ⟨rd, out⟩ := p
  cases out with
  | none => simp at h
  | some data =>
    simp only [] at h
    set c := sd.check_calibration MMT MX MNOK MXOK NS data with hc
    clear_value c
    cases c with
    | MagnetDetected =>
      simp only [Except.ok.injEq, Option.some.injEq] at h
      subst h
      simp only [SenseAnalysis.new]
      refine Int.sub_nonneg.mpr (hmono _ _ ?_)
      split_ifs <;> simp_all
    | NotReady => simp at h
    | SensorMissing => simp at h
    | SensorBroken => simp at h
    | MagnetWrongPoleOrMissing => simp at h
    | MagnetTooStrong => simp at h
    | MagnetTooWeak => simp at h
    | InvalidIndex => simp at h

/-- Witness for C10: a fresh record with the identity table and `SC = 1`
classifies the reading `10` as `MagnetDetected` with distance `0 ≥ 0`. -/
theorem distance_nonneg_witness :
    (SenseData.new.add 1 2 100 2 100 1 idModel 10).2
      = Except.ok (some (⟨10, 0, 0, 0, 0⟩ : SenseAnalysis)) ∧
    0 ≤ (⟨10, 0, 0, 0, 0⟩ : SenseAnalysis).distance :=
  ⟨by rfl,
   distance_nonneg 1 2 100 2 100 1 idModel
     (fun a b hab => by simpa [idModel] using Int.ofNat_le.mpr hab)
     SenseData.new 10 ⟨10, 0, 0, 0, 0⟩ (by rfl)⟩

end HallEffect

namespace HallEffect

/-- Helper: the calibration classifier never produces `NotReady`, so a
sensor's status is `NotReady` exactly when it has never been classified
since construction. -/
theorem check_calibration_ne_notReady (MMT MX MNOK MXOK NS : Nat)
    (sd : SenseData) (data : Nat) :
    sd.check_calibration MMT MX MNOK MXOK NS data ≠ CalibrationStatus.NotReady := by
  cases hc : sd.cal <;>
    simp [SenseData.check_calibration, hc] <;>
    (try split_ifs) <;> simp

/-- C5: `Sensors::get_data(index)` on a collection of capacity `S` fails with
`InvalidSensor` exactly when `index ≥ S`; for an in-bounds index it fails
with `CalibrationError` (carrying the record) exactly when that sensor is
still `NotReady` — the status no classification ever re-produces — and
returns the sensor's record otherwise. -/
theorem get_data_spec (s : Sensors) (S index : Nat)
    (h : s.sensors.length = S) :
    (S ≤ index → s.get_data index = Except.error (SensorError.InvalidSensor index)) ∧
    (s.get_data index = Except.error (SensorError.InvalidSensor index) → S ≤ index) ∧
    (∀ sd : SenseData, s.sensors.get? index = some sd →
      (sd.cal = CalibrationStatus.NotReady →
        s.get_data index = Except.error (SensorError.CalibrationError sd)) ∧
      (sd.cal ≠ CalibrationStatus.NotReady →
        s.get_data index = Except.ok sd)) ∧
    (∀ (MMT MX MNOK MXOK NS data : Nat) (sd : SenseData),
      sd.check_calibration MMT MX MNOK MXOK NS data ≠ CalibrationStatus.NotReady) := by
  subst h
  refine ⟨?_, ?_, ?_, fun MMT MX MNOK MXOK NS data sd =>
    check_calibration_ne_notReady MMT MX MNOK MXOK NS sd data⟩
  · intro hge
    have : ¬ index < s.sensors.length := by omega
    simp [Sensors.get_data, this]
  · intro herr
    by_contra hlt
    have hlt' : index < s.sensors.length := by omega
    simp only [Sensors.get_data, dif_pos hlt'] at herr
    split_ifs at herr
    all_goals simp at herr
  · intro sd hsd
    have hlt : index < s.sensors.length := (List.get?_eq_some.mp hsd).1
    have hget : s.sensors[index] = sd := by
      have := List.get?_eq_get hlt
      rw [this] at hsd
      simpa using Option.some.inj hsd
    constructor
    · intro hnr
      simp [Sensors.get_data, dif_pos hlt, hget, hnr]
    · intro hnr
      simp [Sensors.get_data, dif_pos hlt, hget, hnr]

/-- Witness for C5: with capacity 4 and all sensors fresh, `get_data(5)`
fails out of bounds and `get_data(0)` fails with the not-ready
`CalibrationError` carrying the untouched record. -/
theorem get_data_spec_witness :
    (Sensors.mk (List.replicate 4 SenseData.new)).get_data 5
      = Except.error (SensorError.InvalidSensor 5) ∧
    (Sensors.mk (List.replicate 4 SenseData.new)).get_data 0
      = Except.error (SensorError.CalibrationError SenseData.new) :=
  ⟨(get_data_spec (Sensors.mk (List.replicate 4 SenseData.new)) 4 5 (by decide)).1
      (by decide),
   (((get_data_spec (Sensors.mk (List.replicate 4 SenseData.new)) 4 0
        (by decide)).2.2.1 SenseData.new (by decide)).1 (by decide))⟩

end HallEffect

namespace Keyscanning

variable {CSIZE RSIZE MSIZE : Nat}

/-- Helper: under the strobe invariant, `next_strobe` advances the index to
`(cur + 1) % CSIZE` and returns it. -/
theorem next_strobe_cur (m : Matrix CSIZE RSIZE MSIZE)
    (h : m.cur_strobe < CSIZE) :
    m.next_strobe.1.cur_strobe = (m.cur_strobe + 1) % CSIZE ∧
    m.next_strobe.2 = (m.cur_strobe + 1) % CSIZE := by
  unfold Matrix.next_strobe
  by_cases hge : m.cur_strobe ≥ CSIZE - 1
  · have hc : m.cur_strobe = CSIZE - 1 := by omega
    have : (m.cur_strobe + 1) % CSIZE = 0 := by
      rw [hc]
      have : CSIZE - 1 + 1 = CSIZE := by omega
      rw [this, Nat.mod_self]
    simp [hge, this]
  · have : (m.cur_strobe + 1) % CSIZE = m.cur_strobe + 1 :=
      Nat.mod_eq_of_lt (by omega)
    simp [hge, this]

/-- Helper: after a `clear`, the strobe index after `n` `next_strobe` calls
is `(CSIZE - 1 + n) % CSIZE`. -/
theorem strobeIter_clear_cur (m : Matrix CSIZE RSIZE MSIZE)
    (h : 1 ≤ CSIZE) (n : Nat) :
    (Matrix.strobeIter m.clear n).cur_strobe = (CSIZE - 1 + n) % CSIZE := by
  induction n with
  | zero =>
    simp [Matrix.strobeIter, Matrix.clear, Nat.mod_eq_of_lt (by omega : CSIZE - 1 < CSIZE)]
  | succ n ih =>
    have hlt : (Matrix.strobeIter m.clear n).cur_strobe < CSIZE := by
      rw [ih]; exact Nat.mod_lt _ (by omega)
    have := (next_strobe_cur (Matrix.strobeIter m.clear n) hlt).1
    show (Matrix.strobeIter m.clear n).next_strobe.1.cur_strobe = _
    rw [this, ih, Nat.mod_add_mod]
    congr 1

/-- C6: for every `CSIZE ≥ 1`, from a `clear()` (or fresh construction) the
`(n+1)`-th `next_strobe()` call returns strobe index `n % CSIZE`: the first
call returns 0, each later call returns the previous index plus one except
that the index wraps from `CSIZE − 1` back to 0, so `CSIZE` consecutive calls
return to index 0 (for `CSIZE = 3`: `[0, 1, 2, 0, 1, 2, ...]`). -/
theorem strobe_sequence (CSIZE RSIZE MSIZE : Nat)
    (m : Matrix CSIZE RSIZE MSIZE) (h : 1 ≤ CSIZE) (n : Nat) :
    (m.clear).strobeReturn n = n % CSIZE ∧
    (Matrix.new CSIZE RSIZE MSIZE).strobeReturn n = n % CSIZE := by
  have main : ∀ m' : Matrix CSIZE RSIZE MSIZE,
      (m'.clear).strobeReturn n = n % CSIZE := by
    intro m'
    unfold Matrix.strobeReturn
    have hlt : (Matrix.strobeIter m'.clear n).cur_strobe < CSIZE := by
      rw [strobeIter_clear_cur m' h n]; exact Nat.mod_lt _ (by omega)
    rw [(next_strobe_cur _ hlt).2, strobeIter_clear_cur m' h n, Nat.mod_add_mod]
    have heq : CSIZE - 1 + n + 1 = CSIZE + n := by omega
    rw [heq, Nat.add_mod_left]
  exact ⟨main m, main _⟩

/-- Witness for C6 at `CSIZE = 3`: six consecutive `next_strobe()` calls on a
fresh matrix return `[0, 1, 2, 0, 1, 2]`. -/
theorem strobe_sequence_witness :
    1 ≤ 3 ∧
    [(Matrix.new 3 2 6).strobeReturn 0, (Matrix.new 3 2 6).strobeReturn 1,
     (Matrix.new 3 2 6).strobeReturn 2, (Matrix.new 3 2 6).strobeReturn 3,
     (Matrix.new 3 2 6).strobeReturn 4, (Matrix.new 3 2 6).strobeReturn 5]
      = [0, 1, 2, 0, 1, 2] := by
  refine ⟨by decide, ?_⟩
  have h0 := (strobe_sequence 3 2 6 (Matrix.new 3 2 6) (by decide) 0).2
  have h1 := (strobe_sequence 3 2 6 (Matrix.new 3 2 6) (by decide) 1).2
  have h2 := (strobe_sequence 3 2 6 (Matrix.new 3 2 6) (by decide) 2).2
  have h3 := (strobe_sequence 3 2 6 (Matrix.new 3 2 6) (by decide) 3).2
  have h4 := (strobe_sequence 3 2 6 (Matrix.new 3 2 6) (by decide) 4).2
  have h5 := (strobe_sequence 3 2 6 (Matrix.new 3 2 6) (by decide) 5).2
  rw [h0, h1, h2, h3, h4, h5]

end Keyscanning

namespace Keyscanning

variable {CSIZE RSIZE MSIZE : Nat}

/-- Helper: a successful `sense` call does not move the strobe index. -/
theorem sense_cur_strobe (DB IDLE : Nat) (m m' : Matrix CSIZE RSIZE MSIZE)
    (rows : List Bool) (evs : List KeyEvent)
    (hs : m.sense DB IDLE rows = some (m', evs)) :
    m'.cur_strobe = m.cur_strobe := by
  unfold Matrix.sense at hs
  cases hr : senseRows DB IDLE RSIZE m.cur_strobe m.state_matrix rows 0 with
  | none => rw [hr] at hs; simp at hs
  | some p =>
    rw [hr] at hs
    simp only [Option.some.injEq, Prod.mk.injEq] at hs
    rw [← hs.1]

/-- C7: for every `CSIZE ≥ 1`, the invariant `cur_strobe < CSIZE` holds in
every reachable `Matrix` state: it is established by construction and by
`clear()` (both set `cur_strobe` to `CSIZE − 1`) and preserved by
`next_strobe()`, `strobe()`, and `sense()`. -/
theorem cur_strobe_invariant (CSIZE RSIZE MSIZE DB IDLE : Nat)
    (h : 1 ≤ CSIZE) (m : Matrix CSIZE RSIZE MSIZE)
    (hr : Matrix.Reachable CSIZE RSIZE MSIZE DB IDLE m) :
    m.cur_strobe < CSIZE := by
  induction hr with
  | new => show CSIZE - 1 < CSIZE; omega
  | clear _ _ => show CSIZE - 1 < CSIZE; omega
  | next_strobe _ ih =>
    rename_i m' _
    show m'.next_strobe.1.cur_strobe < CSIZE
    rw [(next_strobe_cur m' ih).1]
    exact Nat.mod_lt _ (by omega)
  | sense _ hs ih =>
    rename_i m₁ m₂ rows evs _
    rw [sense_cur_strobe DB IDLE m₁ m₂ rows evs hs]
    exact ih

/-- Witness for C7: the freshly constructed 3-column matrix is reachable and
satisfies the invariant. -/
theorem cur_strobe_invariant_witness :
    1 ≤ 3 ∧ (Matrix.new 3 2 6).cur_strobe < 3 :=
  ⟨by decide,
   cur_strobe_invariant 3 2 6 5 600 (by decide) (Matrix.new 3 2 6)
     Matrix.Reachable.new⟩

end Keyscanning

namespace Keyscanning

variable {CSIZE RSIZE MSIZE : Nat}

/-- Helper: the row loop of `sense` succeeds whenever every cell index it
will access — `cur_strobe * RSIZE + i` through
`cur_strobe * RSIZE + i + rows.length - 1` — is within the grid. -/
theorem senseRows_isSome (DB IDLE RSIZE cur : Nat) :
    ∀ (rows : List Bool) (sm : List KeyState) (i : Nat),
      cur * RSIZE + i + rows.length ≤ sm.length →
      (senseRows DB IDLE RSIZE cur sm rows i).isSome := by
  intro rows
  induction rows with
  | nil => intro sm i _; simp [senseRows]
  | cons lvl rest ih =>
    intro sm i hlen
    have hidx : cur * RSIZE + i < sm.length := by
      simp only [List.length_cons] at hlen; omega
    have hget := List.get?_eq_get hidx
    simp only [senseRows, hget]
    have hrec := ih (sm.set (cur * RSIZE + i)
        ((sm.get ⟨cur * RSIZE + i, hidx⟩).record DB IDLE lvl).1) (i + 1)
      (by
        simp only [List.length_set]
        simp only [List.length_cons] at hlen
        omega)
    cases hres : senseRows DB IDLE RSIZE cur
        (sm.set (cur * RSIZE + i)
          ((sm.get ⟨cur * RSIZE + i, hidx⟩).record DB IDLE lvl).1) rest (i + 1) with
    | none => rw [hres] at hrec; simp at hrec
    | some p => simp [hres]

/-- C8: with the debounce grid sized `MSIZE = CSIZE × RSIZE` and the strobe
invariant `cur_strobe < CSIZE`, every grid access of `sense()` uses index
`cur_strobe * RSIZE + row_index < MSIZE`, so `sense()` never indexes out of
bounds (it returns a result instead of panicking); the bound depends on the
unchecked precondition `MSIZE = CSIZE × RSIZE`. -/
theorem sense_in_bounds (CSIZE RSIZE MSIZE DB IDLE : Nat)
    (m : Matrix CSIZE RSIZE MSIZE) (rows : List Bool)
    (hM : MSIZE = CSIZE * RSIZE)
    (hcur : m.cur_strobe < CSIZE)
    (hsm : m.state_matrix.length = MSIZE)
    (hrows : rows.length = RSIZE) :
    (∀ i : Nat, i < RSIZE → m.cur_strobe * RSIZE + i < MSIZE) ∧
    (m.sense DB IDLE rows).isSome := by
  constructor
  · intro i hi
    have : m.cur_strobe * RSIZE + RSIZE ≤ CSIZE * RSIZE := by
      have : m.cur_strobe + 1 ≤ CSIZE := hcur
      calc m.cur_strobe * RSIZE + RSIZE = (m.cur_strobe + 1) * RSIZE := by ring
        _ ≤ CSIZE * RSIZE := Nat.mul_le_mul_right _ this
    omega
  · unfold Matrix.sense
    have := senseRows_isSome DB IDLE RSIZE m.cur_strobe rows m.state_matrix 0
      (by
        rw [hrows, hsm]
        have h1 : m.cur_strobe + 1 ≤ CSIZE := hcur
        calc m.cur_strobe * RSIZE + 0 + RSIZE = (m.cur_strobe + 1) * RSIZE := by ring
          _ ≤ CSIZE * RSIZE := Nat.mul_le_mul_right _ h1
          _ = MSIZE := hM.symm)
    cases hres : senseRows DB IDLE RSIZE m.cur_strobe m.state_matrix rows 0 with
    | none => rw [hres] at this; simp at this
    | some p => simp [hres]

/-- Witness for C8: a 2×3 matrix (`MSIZE = 6`) after construction senses a
full column of readings without any out-of-bounds access. -/
theorem sense_in_bounds_witness :
    (6 : Nat) = 2 * 3 ∧ (Matrix.new 2 3 6).cur_strobe < 2 ∧
    (Matrix.new 2 3 6).state_matrix.length = 6 ∧
    ([true, false, true] : List Bool).length = 3 ∧
    ((∀ i : Nat, i < 3 → (Matrix.new 2 3 6).cur_strobe * 3 + i < 6) ∧
      ((Matrix.new 2 3 6).sense 5 600 [true, false, true]).isSome) :=
  ⟨by decide, by decide, by decide, by decide,
   sense_in_bounds 2 3 6 5 600 (Matrix.new 2 3 6) [true, false, true]
     (by decide) (by decide) (by decide) (by decide)⟩

end Keyscanning
